import Mathlib

/-
Verification development for the mbryg repository.

Part 1 embeds `get_compound_pathways.py` (the flat-record KEGG parser):
a line-oriented state machine over rstripped lines.
Part 2 embeds `mbryg.py` (paginated catalog reader, pathway resolver and
join/emit engine). External collaborators (the VMH catalog HTTP endpoint,
`kegg_pull.map.entries_link`, `KEGGRESTpy.kegg_get`) are modelled as
function parameters whose result shapes follow the interfaces the code
consumes.
-/

set_option autoImplicit false

/-- Python `\s` on the ASCII inputs the parser handles:
space, tab, newline, carriage return, vertical tab, form feed. -/
def isPySpace (c : Char) : Bool :=
  c == ' ' || c == '\t' || c == '\n' || c == '\r' || c == '\x0b' || c == '\x0c'

/-- Python `str.rstrip()`: drop trailing whitespace. -/
def pyRstrip (s : String) : String :=
  String.mk ((s.data.reverse.dropWhile isPySpace).reverse)

/-- Python `str.strip()`: drop leading and trailing whitespace. -/
def pyStrip (s : String) : String :=
  String.mk (((s.data.dropWhile isPySpace).reverse.dropWhile isPySpace).reverse)

/-- Python `str.startswith`. -/
def pyStartsWith (pre s : String) : Bool :=
  List.isPrefixOf pre.data s.data

/-- `re.search(r"^ENTRY\s+(C\d+)", line)`: literal `ENTRY` at line start, one
or more whitespace characters, then the captured group: `C` followed by one
or more digits (maximal digit run). Returns the captured compound id. -/
def parseEntry (line : String) : Option String :=
  match line.data with
  | 'E' :: 'N' :: 'T' :: 'R' :: 'Y' :: rest =>
    if (rest.takeWhile isPySpace).isEmpty then none
    else
      match rest.dropWhile isPySpace with
      | 'C' :: ds =>
        if (ds.takeWhile Char.isDigit).isEmpty then none
        else some (String.mk ('C' :: ds.takeWhile Char.isDigit))
      | _ => none
  | _ => none

/-- `re.search(r"^[A-Z]+\s+", line)`: a nonempty run of uppercase letters at
line start followed by at least one whitespace character. Since the two
character classes are disjoint, only the maximal uppercase run can be
followed by whitespace, so no backtracking case analysis is needed. -/
def sectionHeader (line : String) : Bool :=
  let us := line.data.takeWhile (fun c => decide ('A' ≤ c) && decide (c ≤ 'Z'))
  match line.data.dropWhile (fun c => decide ('A' ≤ c) && decide (c ≤ 'Z')) with
  | c :: _ => !us.isEmpty && isPySpace c
  | [] => false

mutual
/-- Accumulating scanner for `re.split(r"\s+", s, maxsplit=k)`: `k` is the
remaining split budget, `acc` the current field (reversed). With no budget
left, whitespace is kept inside the current field. -/
def goSplit : Nat → List Char → List Char → List (List Char)
  | _, acc, [] => [acc.reverse]
  | k, acc, c :: cs =>
    if isPySpace c && k != 0 then acc.reverse :: goSkip (k - 1) cs
    else goSplit k (c :: acc) cs

/-- After a split, consume the rest of the whitespace run, then start the
next field. An exhausted input here yields a trailing empty field, as
`re.split` does. -/
def goSkip : Nat → List Char → List (List Char)
  | _, [] => [[]]
  | k, c :: cs => if isPySpace c then goSkip k cs else goSplit k [c] cs
end

/-- Python `re.split(r"\s+", s, maxsplit=k)`. -/
def resplitWs (k : Nat) (s : String) : List String :=
  (goSplit k [] s.data).map (fun cs => String.mk cs)

/-- State of the flat-record parser of `get_compound_pathways.py`:
the current compound (`""` = none), the pathway-block flag, and the
`defaultdict(list)` mapping compounds to their (id, name) pathway pairs,
in insertion order. -/
structure PState where
  cur : String
  inPathways : Bool
  table : List (String × List (String × String))
  deriving DecidableEq, Repr

/-- `compound_to_pathway[k].append(v)` on a `defaultdict(list)` kept as an
insertion-ordered association list. -/
def tappend (t : List (String × List (String × String))) (k : String)
    (v : String × String) : List (String × List (String × String)) :=
  if k ∈ t.map (fun e => e.1) then
    t.map (fun e => if e.1 = k then (e.1, e.2 ++ [v]) else e)
  else t ++ [(k, [v])]

/-- One iteration of the parser's `for` loop body, in the source's branch
order: ENTRY match, `PATHWAY` prefix, active pathway block (section-header
check, else a two-field continuation with an assertion), `///` terminator,
otherwise ignore. `sys.exit` and failed `assert`s surface as errors. -/
def step (st : PState) (line : String) : Except String PState :=
  match parseEntry line with
  | some cid => .ok { st with cur := cid }
  | none =>
    if pyStartsWith "PATHWAY" line then
      if st.cur = "" then .error "Found PATHWAY but don't have compound"
      else
        match resplitWs 2 line with
        | [_, pid, pname] =>
          .ok { st with inPathways := true, table := tappend st.table st.cur (pid, pname) }
        | _ => .error "AssertionError"
    else if st.inPathways then
      if sectionHeader line then .ok { st with inPathways := false }
      else
        match resplitWs 1 (pyStrip line) with
        | [pid, pname] => .ok { st with table := tappend st.table st.cur (pid, pname) }
        | _ => .error "AssertionError"
    else if line = "///" then .ok { st with cur := "", inPathways := false }
    else .ok st

/-- Run the parser's loop over a list of lines. -/
def stepAll : PState → List String → Except String PState
  | st, [] => .ok st
  | st, l :: ls =>
    match step st l with
    | .error e => .error e
    | .ok st2 => stepAll st2 ls

/-- `main` of `get_compound_pathways.py` up to the output loop: rstrip each
line and fold the state machine from the initial state. -/
def runParser (lines : List String) : Except String PState :=
  stepAll ⟨ "", false, [] ⟩ (lines.map pyRstrip)

/-- The final print loop: one (compound, pathway id, pathway name) triple
per stored pair, in table order. -/
def outputTriples (st : PState) : List (String × String × String) :=
  st.table.foldr (fun e acc => (e.2.map (fun p => (e.1, p.1, p.2))) ++ acc) []

/-
Part 2: embedding of `mbryg.py`. A catalog record is a Python dict kept as
an insertion-ordered association list from attribute name to value (the
code only ever reads and writes string-valued fields).
-/

/-- A catalog record / CSV row dict: insertion-ordered key-value pairs. -/
abbrev Record : Type := List (String × String)

/-- The keys of a dict, in insertion order. -/
def dkeys (d : Record) : List String := d.map (fun kv => kv.1)

/-- Pointwise update used by `dset` on an already-present key. -/
def dupd (k v : String) (kv : String × String) : String × String :=
  if kv.1 = k then (k, v) else kv

/-- Python `d[k] = v`: update the existing key in place, else append. -/
def dset (d : Record) (k v : String) : Record :=
  if k ∈ dkeys d then d.map (dupd k v) else d ++ [(k, v)]

/-- Python `d.get(k, dflt)`: first match or the default. -/
def dget : Record → String → String → String
  | [], _, dflt => dflt
  | kv :: rest, k, dflt => if kv.1 = k then kv.2 else dget rest k dflt

/-- The three assignments `result["Compound_ID"] = a`,
`result["Pathway_ID"] = b`, `result["Pathway_Name"] = c`, in source order. -/
def setThree (d : Record) (a b c : String) : Record :=
  dset (dset (dset d "Compound_ID" a) "Pathway_ID" b) "Pathway_Name" c

/-- `csv.DictWriter.writerow`: raise `ValueError` when the dict holds a key
outside `fieldnames`; otherwise write one value per field name in order,
with the rest value (rendered as the empty string) for absent keys. -/
def writerow (fns : List String) (d : Record) : Except String (List String) :=
  if ∀ k ∈ dkeys d, k ∈ fns then .ok (fns.map (fun f => dget d f ""))
  else .error "ValueError: dict contains fields not in fieldnames"

/-- Shape of a `KEGGRESTpy.kegg_get` result as `mbryg.py` consumes it:
either not a dict at all, or a dict from field names to lists of values
(the code reads only `info["NAME"][0]` behind an
`isinstance(info, dict) and "NAME" in info` guard). -/
inductive KeggInfo where
  | nonDict : KeggInfo
  | ofDict : List (String × List String) → KeggInfo

/-- First match in a kegg info dict (Python `"NAME" in info` / `info["NAME"]`). -/
def kfind : List (String × List String) → String → Option (List String)
  | [], _ => none
  | kv :: rest, k => if kv.1 = k then some kv.2 else kfind rest k

/-- The inner `for path_id in pathways_ids` loop: threads the mutated
`result` dict, accumulates the rows written, and surfaces the uncaught
`IndexError` that `info["NAME"][0]` raises when the NAME list is empty. -/
def emitLoop (kg : String → KeggInfo) (fns : List String) (kid : String) :
    Record → List String → Except String (Record × List (List String))
  | r, [] => .ok (r, [])
  | r, pid :: rest =>
    match kg pid with
    | .nonDict => emitLoop kg fns kid r rest
    | .ofDict m =>
      match kfind m "NAME" with
      | none => emitLoop kg fns kid r rest
      | some [] => .error "IndexError: list index out of range"
      | some (n :: _) =>
        match writerow fns (setThree r kid pid n) with
        | .error e => .error e
        | .ok row =>
          match emitLoop kg fns kid (setThree r kid pid n) rest with
          | .error e => .error e
          | .ok (rf, rows) => .ok (rf, row :: rows)

/-- The outer `for compound, pathways_ids in pathways.items()` loop. -/
def processEntries (kg : String → KeggInfo) (fns : List String) (kid : String) :
    Record → List (String × List String) → Except String (Record × List (List String))
  | r, [] => .ok (r, [])
  | r, (_, ids) :: rest =>
    match emitLoop kg fns kid r ids with
    | .error e => .error e
    | .ok (r1, rows1) =>
      match processEntries kg fns kid r1 rest with
      | .error e => .error e
      | .ok (r2, rows2) => .ok (r2, rows1 ++ rows2)

/-- `if not kegg_id.startswith("cpd:"): kegg_id = f"cpd:{kegg_id}"`. -/
def normalizeId (k : String) : String :=
  if pyStartsWith "cpd:" k then k else "cpd:" ++ k

/-- The body of `for result in results` in `mbryg.py` `main`, for one
record: read `keggId` (default `""`), set the three pathway columns to
empty, short-circuit an empty id to a single row, otherwise normalize the
id, call stage 1 (`kmap.entries_link`, modelled by `el`; its `except`
branch writes the fallback row), and run the join loops with stage 2
(`kegg_get`, modelled by `kg`). Returns the rows written for this record,
or the uncaught exception that aborts the run. -/
def processRecord (el : String → Except String (List (String × List String)))
    (kg : String → KeggInfo) (fns : List String) (result : Record) :
    Except String (List (List String)) :=
  if dget result "keggId" "" = "" then
    match writerow fns (setThree result "" "" "") with
    | .error e => .error e
    | .ok row => .ok [row]
  else
    match el (normalizeId (dget result "keggId" "")) with
    | .error _ =>
      match writerow fns (setThree result "" "" "") with
      | .error e => .error e
      | .ok row => .ok [row]
    | .ok es =>
      match processEntries kg fns (normalizeId (dget result "keggId" "")) (setThree result "" "" "") es with
      | .error e => .error e
      | .ok (_, rows) => .ok rows

/-- One page of the VMH catalog response as the code consumes it:
HTTP status, the `results` list and the `next` locator. -/
structure Page where
  status : Nat
  results : List Record
  next : String

/-- The catalog loop of `mbryg.py` as written: `while True: if url:`
fetch the page, exit on a non-200 status, accumulate the results, assign
`url = data["next"]` and `break`; `else: break`. Both branches of the
single iteration end in `break`, so at most one page is ever fetched. -/
def fetchAll (fetch : String → Page) (url : String) : Except String (List Record) :=
  if url = "" then .ok []
  else
    if (fetch url).status ≠ 200 then .error ("Failed to get " ++ url)
    else .ok (fetch url).results

/-- Follows the `next` locator until it is empty, concatenating every
page's results in order, as the spec's Paginated Catalog Reader contract
reads; the fuel bounds the number of pages and is irrelevant for
well-founded page chains shorter than it. Used only to compare the code's
loop against the claimed behaviour. -/
def specFollowPages (fetch : String → Page) : Nat → String → List Record
  | 0, _ => []
  | n + 1, url =>
    if url = "" then [] else (fetch url).results ++ specFollowPages fetch n (fetch url).next

/-- The `for result in results` loop over all records, concatenating the
rows each record writes and propagating any uncaught exception. -/
def processAll (el : String → Except String (List (String × List String)))
    (kg : String → KeggInfo) (fns : List String) :
    List Record → Except String (List (List String))
  | [] => .ok []
  | r :: rs =>
    match processRecord el kg fns r with
    | .error e => .error e
    | .ok rows =>
      match processAll el kg fns rs with
      | .error e => .error e
      | .ok rest => .ok (rows ++ rest)

/-- `main` of `mbryg.py` from the fetch loop on: fetch, fail on an empty
result list, compute the CSV field names once from the first record's keys
plus the three pathway columns, then process every record. Returns the
header and the emitted rows. -/
def runMain (fetch : String → Page)
    (el : String → Except String (List (String × List String)))
    (kg : String → KeggInfo) (url : String) :
    Except String (List String × List (List String)) :=
  match fetchAll fetch url with
  | .error e => .error e
  | .ok [] => .error "Unable to find"
  | .ok (r0 :: rs) =>
    match processAll el kg (dkeys r0 ++ ["Compound_ID", "Pathway_ID", "Pathway_Name"]) (r0 :: rs) with
    | .error e => .error e
    | .ok rows => .ok (dkeys r0 ++ ["Compound_ID", "Pathway_ID", "Pathway_Name"], rows)

/-- Does the stage-2 lookup of `pid` pass the code's guard and carry at
least one name, i.e. does it produce a row? -/
def hasName (kg : String → KeggInfo) (pid : String) : Bool :=
  match kg pid with
  | .ofDict m =>
    match kfind m "NAME" with
    | some (_ :: _) => true
    | _ => false
  | .nonDict => false

/-- Does the stage-2 lookup of `pid` trip the uncaught `IndexError`
(a dict whose NAME field is an empty list)? -/
def nameEmptyErr (kg : String → KeggInfo) (pid : String) : Bool :=
  match kg pid with
  | .ofDict m =>
    match kfind m "NAME" with
    | some [] => true
    | _ => false
  | .nonDict => false

/-- `info["NAME"][0]` for a pid that passes the guard (and `""` otherwise). -/
def nameOf (kg : String → KeggInfo) (pid : String) : String :=
  match kg pid with
  | .ofDict m =>
    match kfind m "NAME" with
    | some (n :: _) => n
    | _ => ""
  | .nonDict => ""

/-- The pathway ids, among those the resolver yielded, whose stage-2
lookup resolves to a named dict — exactly the ones that produce rows. -/
def namedIds (kg : String → KeggInfo) (ids : List String) : List String :=
  ids.filter (hasName kg)

/-- The pathway ids of a stage-1 mapping in iteration order:
`for compound, pathways_ids in pathways.items(): for path_id in pathways_ids`. -/
def flatIds : List (String × List String) → List String
  | [] => []
  | e :: rest => e.2 ++ flatIds rest

/-- The row written for pathway id `pid` of the record `base`: the record
with the three pathway columns set, projected onto the field names. -/
def rowFor (kg : String → KeggInfo) (fns : List String) (kid : String)
    (base : Record) (pid : String) : List String :=
  fns.map (fun f => dget (setThree base kid pid (nameOf kg pid)) f "")

/-
Concrete collaborator instances used to evaluate the pipeline at specific
inputs.
-/

/-- A catalog of two pages: `page1` points at `page2`, `page2` is the last. -/
def fetchC1 : String → Page :=
  fun u => if u = "page1" then ⟨ 200, [[("name", "a")]], "page2" ⟩
    else ⟨ 200, [[("name", "b")]], "" ⟩

/-- A stage-1 oracle returning the empty mapping for every identifier. -/
def elC2 : String → Except String (List (String × List String)) :=
  fun _ => .ok []

/-- A stage-2 oracle whose every lookup is malformed (not a dict). -/
def kgC2 : String → KeggInfo := fun _ => .nonDict

/-- Stage 1 yielding the same pathway id twice for one compound. -/
def elC3 : String → Except String (List (String × List String)) :=
  fun s => if s = "cpd:C00031" then .ok [("cpd:C00031", ["map00010", "map00010"])]
    else .error "fail"

/-- Stage 2 resolving `map00010` and nothing else. -/
def kgC3 : String → KeggInfo :=
  fun s => if s = "map00010" then .ofDict [("NAME", ["Glycolysis"])] else .nonDict

/-- The field names the engine computes for a record with a single
`keggId` attribute. -/
def fnsC3 : List String := ["keggId", "Compound_ID", "Pathway_ID", "Pathway_Name"]

/-- The column at index `i` of the emitted rows (empty on an aborted run). -/
def colValues (i : Nat) (res : Except String (List (List String))) : List String :=
  match res with
  | .ok rows => rows.map (fun row => row.getD i "")
  | .error _ => []

/-- Stage 1 yielding two pathway ids for `cpd:C00031`. -/
def elW7 : String → Except String (List (String × List String)) :=
  fun s => if s = "cpd:C00031" then .ok [("cpd:C00031", ["map00010", "map00020"])]
    else .error "fail"

/-- Stage 2 resolving `map00010` but failing (malformed) on `map00020`. -/
def kgW7 : String → KeggInfo :=
  fun s => if s = "map00010" then .ofDict [("NAME", ["Glycolysis"])] else .nonDict

/-- Stage 2 resolving `map00010` but returning the malformed dict
`{NAME: []}` for every other pathway id. -/
def kgC7 : String → KeggInfo :=
  fun s => if s = "map00010" then .ofDict [("NAME", ["Glycolysis"])] else .ofDict [("NAME", [])]

/-- One catalog page whose second record is missing the `keggId` attribute
the first record has. -/
def fetchC8 : String → Page :=
  fun _ => ⟨ 200, [[("name", "glucose"), ("keggId", "")], [("name", "x")]], "" ⟩

/-- One catalog page whose second record carries an extra attribute `zzz`
the first record lacks. -/
def fetchW8 : String → Page :=
  fun _ => ⟨ 200, [[("keggId", "")], [("keggId", ""), ("zzz", "1")]], "" ⟩

/-- Stage 1 yielding one pathway id for `cpd:C00031`. -/
def elW10 : String → Except String (List (String × List String)) :=
  fun s => if s = "cpd:C00031" then .ok [("cpd:C00031", ["map00010"])] else .error "fail"

/-- Stage 2 resolving `map00010`. -/
def kgW10 : String → KeggInfo :=
  fun s => if s = "map00010" then .ofDict [("NAME", ["Glycolysis"])] else .nonDict

/-
Dictionary lemmas: how `dget`, `dkeys` and `dset` interact, leading to the
stabilization fact `setThree_setThree` (re-assigning the three pathway
columns erases the previous assignment).
-/

theorem dkeys_nil : dkeys [] = [] := rfl

theorem dkeys_cons (kv : String × String) (rest : Record) :
    dkeys (kv :: rest) = kv.1 :: dkeys rest := rfl

theorem dget_nil (k dflt : String) : dget [] k dflt = dflt := rfl

theorem dget_cons (kv : String × String) (rest : Record) (k dflt : String) :
    dget (kv :: rest) k dflt = if kv.1 = k then kv.2 else dget rest k dflt := rfl

theorem dupd_fst (k v : String) (kv : String × String) : (dupd k v kv).1 = kv.1 := by
  unfold dupd
  split
  · simp [*]
  · rfl

theorem dkeys_map_dupd (d : Record) (k v : String) :
    dkeys (d.map (dupd k v)) = dkeys d := by
  unfold dkeys
  rw [List.map_map]
  congr 1
  funext kv
  exact dupd_fst k v kv

theorem dkeys_append (d l : Record) : dkeys (d ++ l) = dkeys d ++ dkeys l := by
  simp [dkeys]

theorem dkeys_dset (d : Record) (k v : String) :
    dkeys (dset d k v) = if k ∈ dkeys d then dkeys d else dkeys d ++ [k] := by
  unfold dset
  split
  · exact dkeys_map_dupd d k v
  · rw [dkeys_append]
    rfl

theorem mem_dkeys_dset {d : Record} {k v k' : String} :
    k' ∈ dkeys (dset d k v) ↔ k' = k ∨ k' ∈ dkeys d := by
  rw [dkeys_dset]
  by_cases h : k ∈ dkeys d
  · rw [if_pos h]
    constructor
    · exact fun hm => Or.inr hm
    · rintro (rfl | hm)
      · exact h
      · exact hm
  · rw [if_neg h]
    simp [or_comm]

theorem dget_map_dupd_self (d : Record) (k v dflt : String) (h : k ∈ dkeys d) :
    dget (d.map (dupd k v)) k dflt = v := by
  induction d with
  | nil => cases h
  | cons kv rest ih =>
    by_cases hk : kv.1 = k
    · rw [List.map_cons]
      unfold dupd
      rw [if_pos hk, dget_cons, if_pos rfl]
    · have hmem : k ∈ dkeys rest := by
        rcases (by rw [dkeys_cons] at h; exact List.mem_cons.mp h : k = kv.1 ∨ k ∈ dkeys rest) with h1 | h1
        · exact absurd h1.symm hk
        · exact h1
      rw [List.map_cons]
      unfold dupd
      rw [if_neg hk, dget_cons, if_neg hk]
      exact ih hmem

theorem dget_map_dupd_ne (d : Record) (k v k' dflt : String) (h : k' ≠ k) :
    dget (d.map (dupd k v)) k' dflt = dget d k' dflt := by
  induction d with
  | nil => rfl
  | cons kv rest ih =>
    rw [List.map_cons, dget_cons, dget_cons, dupd_fst]
    by_cases hk : kv.1 = k'
    · rw [if_pos hk, if_pos hk]
      unfold dupd
      rw [if_neg (by rw [hk]; exact h)]
    · rw [if_neg hk, if_neg hk]
      exact ih

theorem dget_append (d l : Record) (k dflt : String) :
    dget (d ++ l) k dflt = if k ∈ dkeys d then dget d k dflt else dget l k dflt := by
  induction d with
  | nil => simp [dget_nil, dkeys_nil]
  | cons kv rest ih =>
    rw [List.cons_append, dget_cons, dget_cons, dkeys_cons]
    by_cases hk : kv.1 = k
    · rw [if_pos hk, if_pos (List.mem_cons.mpr (Or.inl hk.symm)), if_pos hk]
    · rw [if_neg hk, ih]
      have : (k ∈ kv.1 :: dkeys rest) ↔ (k ∈ dkeys rest) := by
        rw [List.mem_cons]
        exact ⟨fun hc => hc.resolve_left (fun he => hk he.symm), Or.inr⟩
      by_cases hm : k ∈ dkeys rest
      · rw [if_pos hm, if_pos (this.mpr hm), if_neg hk]
      · rw [if_neg hm, if_neg (fun hc => hm (this.mp hc))]

theorem dget_dset_self (d : Record) (k v dflt : String) :
    dget (dset d k v) k dflt = v := by
  unfold dset
  split
  · exact dget_map_dupd_self d k v dflt (by assumption)
  · rw [dget_append, if_neg (by assumption), dget_cons, if_pos rfl]

theorem dget_of_not_mem (d : Record) (k dflt : String) (h : k ∉ dkeys d) :
    dget d k dflt = dflt := by
  induction d with
  | nil => rfl
  | cons kv rest ih =>
    have h1 : kv.1 ≠ k := by
      intro he
      exact h (by rw [dkeys_cons]; exact List.mem_cons.mpr (Or.inl he.symm))
    have h2 : k ∉ dkeys rest := fun hm => h (by rw [dkeys_cons]; exact List.mem_cons.mpr (Or.inr hm))
    rw [dget_cons, if_neg h1]
    exact ih h2

theorem dget_dset_ne (d : Record) (k v k' dflt : String) (h : k' ≠ k) :
    dget (dset d k v) k' dflt = dget d k' dflt := by
  unfold dset
  split
  · exact dget_map_dupd_ne d k v k' dflt h
  · rw [dget_append]
    by_cases hm : k' ∈ dkeys d
    · rw [if_pos hm]
    · rw [if_neg hm, dget_of_not_mem d k' dflt hm, dget_cons, if_neg (fun he => h he.symm), dget_nil]

theorem map_dupd_of_not_mem (d : Record) (k v : String) (h : k ∉ dkeys d) :
    d.map (dupd k v) = d := by
  induction d with
  | nil => rfl
  | cons kv rest ih =>
    have h1 : kv.1 ≠ k := fun he => h (by rw [dkeys_cons]; exact List.mem_cons.mpr (Or.inl he.symm))
    have h2 : k ∉ dkeys rest := fun hm => h (by rw [dkeys_cons]; exact List.mem_cons.mpr (Or.inr hm))
    rw [List.map_cons, ih h2]
    congr 1
    unfold dupd
    rw [if_neg h1]

theorem dset_absorb (d : Record) (k v v' : String) :
    dset (dset d k v) k v' = dset d k v' := by
  by_cases h : k ∈ dkeys d
  · have e1 : dset d k v = d.map (dupd k v) := by unfold dset; rw [if_pos h]
    have h2 : k ∈ dkeys (d.map (dupd k v)) := by rw [dkeys_map_dupd]; exact h
    rw [e1]
    unfold dset
    rw [if_pos h2, if_pos h, List.map_map]
    congr 1
    funext kv
    by_cases hk : kv.1 = k
    · simp [dupd, Function.comp, hk]
    · simp [dupd, Function.comp, hk]
  · have e1 : dset d k v = d ++ [(k, v)] := by unfold dset; rw [if_neg h]
    have h2 : k ∈ dkeys (d ++ [(k, v)]) := by
      rw [dkeys_append]
      exact List.mem_append_right _ (by simp [dkeys])
    rw [e1]
    unfold dset
    rw [if_pos h2, if_neg h, List.map_append, map_dupd_of_not_mem d k v' h]
    simp [dupd]

theorem dset_comm_mem (d : Record) (k v k' v' : String) (hne : k ≠ k') (h : k ∈ dkeys d) :
    dset (dset d k' v') k v = dset (dset d k v) k' v' := by
  by_cases hm' : k' ∈ dkeys d
  · have e1 : dset d k' v' = d.map (dupd k' v') := by unfold dset; rw [if_pos hm']
    have e2 : dset d k v = d.map (dupd k v) := by unfold dset; rw [if_pos h]
    have hk1 : k ∈ dkeys (d.map (dupd k' v')) := by rw [dkeys_map_dupd]; exact h
    have hk2 : k' ∈ dkeys (d.map (dupd k v)) := by rw [dkeys_map_dupd]; exact hm'
    rw [e1, e2]
    unfold dset
    rw [if_pos hk1, if_pos hk2, List.map_map, List.map_map]
    congr 1
    funext kv
    by_cases ha : kv.1 = k
    · have hb : kv.1 ≠ k' := by rw [ha]; exact hne
      simp [dupd, Function.comp, ha, hb, hne]
    · by_cases hb : kv.1 = k'
      · simp [dupd, Function.comp, ha, hb, Ne.symm hne]
      · simp [dupd, Function.comp, ha, hb]
  · have e1 : dset d k' v' = d ++ [(k', v')] := by unfold dset; rw [if_neg hm']
    have e2 : dset d k v = d.map (dupd k v) := by unfold dset; rw [if_pos h]
    have hk1 : k ∈ dkeys (d ++ [(k', v')]) := by
      rw [dkeys_append]
      exact List.mem_append_left _ h
    have hk2 : k' ∉ dkeys (d.map (dupd k v)) := by rw [dkeys_map_dupd]; exact hm'
    rw [e1, e2]
    unfold dset
    rw [if_pos hk1, if_neg hk2, List.map_append]
    have : ([(k', v')] : Record).map (dupd k v) = [(k', v')] := by
      simp [dupd, Ne.symm hne]
    rw [this]

theorem setThree_setThree (d : Record) (a b c a' b' c' : String) :
    setThree (setThree d a b c) a' b' c' = setThree d a' b' c' := by
  unfold setThree
  have hC1 : "Compound_ID" ∈ dkeys (dset d "Compound_ID" a) :=
    mem_dkeys_dset.mpr (Or.inl rfl)
  have hC2 : "Compound_ID" ∈ dkeys (dset (dset d "Compound_ID" a) "Pathway_ID" b) :=
    mem_dkeys_dset.mpr (Or.inr hC1)
  rw [dset_comm_mem (dset (dset d "Compound_ID" a) "Pathway_ID" b) "Compound_ID" a'
    "Pathway_Name" c (by decide) hC2]
  rw [dset_comm_mem (dset d "Compound_ID" a) "Compound_ID" a' "Pathway_ID" b (by decide) hC1]
  rw [dset_absorb d "Compound_ID" a a']
  have hP : "Pathway_ID" ∈ dkeys (dset (dset d "Compound_ID" a') "Pathway_ID" b) :=
    mem_dkeys_dset.mpr (Or.inl rfl)
  rw [dset_comm_mem (dset (dset d "Compound_ID" a') "Pathway_ID" b) "Pathway_ID" b'
    "Pathway_Name" c (by decide) hP]
  rw [dset_absorb (dset d "Compound_ID" a') "Pathway_ID" b b']
  rw [dset_absorb (dset (dset d "Compound_ID" a') "Pathway_ID" b') "Pathway_Name" c c']

theorem dkeys_setThree_val_indep (d : Record) (a b c : String) :
    dkeys (setThree d a b c) = dkeys (setThree d "" "" "") := by
  simp [setThree, dkeys_dset]

theorem mem_dkeys_setThree {d : Record} {a b c k : String} :
    k ∈ dkeys (setThree d a b c) ↔
      k ∈ dkeys d ∨ k = "Compound_ID" ∨ k = "Pathway_ID" ∨ k = "Pathway_Name" := by
  unfold setThree
  rw [mem_dkeys_dset, mem_dkeys_dset, mem_dkeys_dset]
  tauto

theorem dget_setThree_compound (d : Record) (a b c dflt : String) :
    dget (setThree d a b c) "Compound_ID" dflt = a := by
  unfold setThree
  rw [dget_dset_ne _ _ _ _ _ (by decide), dget_dset_ne _ _ _ _ _ (by decide), dget_dset_self]

theorem dget_setThree_pathwayId (d : Record) (a b c dflt : String) :
    dget (setThree d a b c) "Pathway_ID" dflt = b := by
  unfold setThree
  rw [dget_dset_ne _ _ _ _ _ (by decide), dget_dset_self]

theorem dget_setThree_pathwayName (d : Record) (a b c dflt : String) :
    dget (setThree d a b c) "Pathway_Name" dflt = c := by
  unfold setThree
  rw [dget_dset_self]

theorem dget_setThree_other (d : Record) (a b c k dflt : String)
    (h1 : k ≠ "Compound_ID") (h2 : k ≠ "Pathway_ID") (h3 : k ≠ "Pathway_Name") :
    dget (setThree d a b c) k dflt = dget d k dflt := by
  unfold setThree
  rw [dget_dset_ne _ _ _ _ _ h3, dget_dset_ne _ _ _ _ _ h2, dget_dset_ne _ _ _ _ _ h1]

/-
Loop specifications: the inner and outer join loops write exactly one row
per resolver-yielded pathway id whose stage-2 lookup carries a name, in
iteration order, with the row determined by the record as first seen
(the in-place mutation of `result` is erased by `setThree_setThree`).
-/

theorem emitLoop_spec (kg : String → KeggInfo) (fns : List String) (kid : String)
    (base : Record) :
    ∀ (ids : List String) (r : Record),
      (∀ a b c, setThree r a b c = setThree base a b c) →
      (∀ p ∈ ids, nameEmptyErr kg p = false) →
      (∀ k ∈ dkeys (setThree base "" "" ""), k ∈ fns) →
      ∃ rf, emitLoop kg fns kid r ids =
          .ok (rf, (namedIds kg ids).map (rowFor kg fns kid base)) ∧
        ∀ a b c, setThree rf a b c = setThree base a b c := by
  intro ids
  induction ids with
  | nil =>
    intro r hstab _ _
    exact ⟨r, rfl, hstab⟩
  | cons pid rest ih =>
    intro r hstab hidx hkeys
    have hidxr : ∀ p ∈ rest, nameEmptyErr kg p = false :=
      fun p hp => hidx p (List.mem_cons_of_mem _ hp)
    cases hkg : kg pid with
    | nonDict =>
      have hname : hasName kg pid = false := by simp only [hasName, hkg]
      have hfil : namedIds kg (pid :: rest) = namedIds kg rest := by
        unfold namedIds
        rw [List.filter_cons, hname]
        simp
      obtain ⟨rf, he, hf⟩ := ih r hstab hidxr hkeys
      refine ⟨rf, ?_, hf⟩
      rw [hfil]
      simp only [emitLoop, hkg]
      exact he
    | ofDict m =>
      cases hfind : kfind m "NAME" with
      | none =>
        have hname : hasName kg pid = false := by simp only [hasName, hkg, hfind]
        have hfil : namedIds kg (pid :: rest) = namedIds kg rest := by
          unfold namedIds
          rw [List.filter_cons, hname]
          simp
        obtain ⟨rf, he, hf⟩ := ih r hstab hidxr hkeys
        refine ⟨rf, ?_, hf⟩
        rw [hfil]
        simp only [emitLoop, hkg, hfind]
        exact he
      | some ns =>
        cases ns with
        | nil =>
          have := hidx pid (List.mem_cons_self pid rest)
          simp only [nameEmptyErr, hkg, hfind] at this
          cases this
        | cons n ns2 =>
          have hname : hasName kg pid = true := by simp only [hasName, hkg, hfind]
          have hnof : nameOf kg pid = n := by simp only [nameOf, hkg, hfind]
          have hfil : namedIds kg (pid :: rest) = pid :: namedIds kg rest := by
            unfold namedIds
            rw [List.filter_cons, hname]
            simp
          have hrw : setThree r kid pid n = setThree base kid pid n := hstab kid pid n
          have hcond : ∀ k ∈ dkeys (setThree base kid pid n), k ∈ fns := by
            intro k hk
            exact hkeys k ((dkeys_setThree_val_indep base kid pid n) ▸ hk)
          have hwr : writerow fns (setThree r kid pid n) =
              .ok (fns.map (fun f => dget (setThree base kid pid n) f "")) := by
            rw [hrw]
            unfold writerow
            rw [if_pos hcond]
          have hstab2 : ∀ a b c, setThree (setThree r kid pid n) a b c = setThree base a b c :=
            fun a b c => by rw [hrw, setThree_setThree]
          obtain ⟨rf, he, hf⟩ := ih (setThree r kid pid n) hstab2 hidxr hkeys
          refine ⟨rf, ?_, hf⟩
          rw [hfil, List.map_cons]
          simp only [emitLoop, hkg, hfind, hwr, he]
          simp only [rowFor, hnof]

/-- `flatIds` distributes over cons. -/
theorem flatIds_cons (e : String × List String) (rest : List (String × List String)) :
    flatIds (e :: rest) = e.2 ++ flatIds rest := rfl

theorem namedIds_append (kg : String → KeggInfo) (xs ys : List String) :
    namedIds kg (xs ++ ys) = namedIds kg xs ++ namedIds kg ys := by
  unfold namedIds
  rw [List.filter_append]

theorem processEntries_spec (kg : String → KeggInfo) (fns : List String) (kid : String)
    (base : Record) :
    ∀ (es : List (String × List String)) (r : Record),
      (∀ a b c, setThree r a b c = setThree base a b c) →
      (∀ p ∈ flatIds es, nameEmptyErr kg p = false) →
      (∀ k ∈ dkeys (setThree base "" "" ""), k ∈ fns) →
      ∃ rf, processEntries kg fns kid r es =
          .ok (rf, (namedIds kg (flatIds es)).map (rowFor kg fns kid base)) ∧
        ∀ a b c, setThree rf a b c = setThree base a b c := by
  intro es
  induction es with
  | nil =>
    intro r hstab _ _
    exact ⟨r, rfl, hstab⟩
  | cons e rest ih =>
    intro r hstab hidx hkeys
    have hidx1 : ∀ p ∈ e.2, nameEmptyErr kg p = false :=
      fun p hp => hidx p (by rw [flatIds_cons]; exact List.mem_append_left _ hp)
    have hidx2 : ∀ p ∈ flatIds rest, nameEmptyErr kg p = false :=
      fun p hp => hidx p (by rw [flatIds_cons]; exact List.mem_append_right _ hp)
    obtain ⟨r1, he1, hs1⟩ := emitLoop_spec kg fns kid base e.2 r hstab hidx1 hkeys
    obtain ⟨rf, he2, hf⟩ := ih r1 hs1 hidx2 hkeys
    refine ⟨rf, ?_, hf⟩
    simp only [processEntries, he1, he2, flatIds_cons, namedIds_append, List.map_append]

theorem processRecord_spec (el : String → Except String (List (String × List String)))
    (kg : String → KeggInfo) (fns : List String) (result : Record) (kid0 : String)
    (es : List (String × List String))
    (h1 : dget result "keggId" "" = kid0) (h2 : kid0 ≠ "")
    (hel : el (normalizeId kid0) = .ok es)
    (hidx : ∀ p ∈ flatIds es, nameEmptyErr kg p = false)
    (hkeys : ∀ k ∈ dkeys (setThree result "" "" ""), k ∈ fns) :
    processRecord el kg fns result =
      .ok ((namedIds kg (flatIds es)).map (rowFor kg fns (normalizeId kid0) result)) := by
  unfold processRecord
  rw [h1, if_neg h2]
  simp only [hel]
  obtain ⟨rf, he, _⟩ := processEntries_spec kg fns (normalizeId kid0) result es
    (setThree result "" "" "") (fun a b c => setThree_setThree result "" "" "" a b c)
    hidx hkeys
  simp only [he]

/-
Generic list helpers for the claim theorems.
-/

theorem count_filter_of_pos {α : Type} [BEq α] [LawfulBEq α] (p : α → Bool) (a : α)
    (h : p a = true) : ∀ l : List α, (l.filter p).count a = l.count a := by
  intro l
  induction l with
  | nil => rfl
  | cons b l ih =>
    rw [List.filter_cons]
    by_cases hb : p b = true
    · rw [if_pos hb, List.count_cons, List.count_cons, ih]
    · have hba2 : (b == a) = false := by
        cases hc : b == a
        · rfl
        · have hba3 : b = a := beq_iff_eq.mp hc
          rw [hba3] at hb
          exact absurd h hb
      rw [if_neg hb, ih, List.count_cons, hba2]
      simp

theorem count_map_ge {α β : Type} [BEq α] [LawfulBEq α] [BEq β] [LawfulBEq β] (f : α → β) (a : α) :
    ∀ l : List α, l.count a ≤ (l.map f).count (f a) := by
  intro l
  induction l with
  | nil => exact Nat.le_refl 0
  | cons b l ih =>
    rw [List.map_cons, List.count_cons, List.count_cons]
    by_cases hb : (b == a) = true
    · have hf : (f b == f a) = true := beq_iff_eq.mpr (congrArg f (beq_iff_eq.mp hb))
      rw [hb, hf]
      simp
      omega
    · have hb2 : (b == a) = false := by
        cases hc : b == a
        · rfl
        · exact absurd hc hb
      rw [hb2]
      by_cases hf : (f b == f a) = true
      · rw [hf]
        simp
        omega
      · have hf2 : (f b == f a) = false := by
          cases hc : f b == f a
          · rfl
          · exact absurd hc hf
        rw [hf2]
        simp
        omega

theorem getD_map_lt {α β : Type} (f : α → β) (dflt : α) (dfltb : β) :
    ∀ (l : List α) (i : Nat), i < l.length → (l.map f).getD i dfltb = f (l.getD i dflt) := by
  intro l
  induction l with
  | nil =>
    intro i h
    cases h
  | cons x l ih =>
    intro i h
    cases i with
    | zero => rfl
    | succ j => exact ih j (Nat.lt_of_succ_lt_succ h)

/-
Claim theorems.
-/

/-- C1: the claim says the catalog reader keeps fetching pages while the
previous response's `next` field is non-empty and accumulates every page's
results. The code's `while True` loop ends both of its branches with
`break`, so exactly one page is fetched: on a two-page catalog the
accumulated sequence has the first page's single record, while the full
page chain holds two records. -/
theorem c1_pagination_single_fetch :
    fetchAll fetchC1 "page1" = Except.ok [[("name", "a")]] ∧
    specFollowPages fetchC1 3 "page1" = [[("name", "a")], [("name", "b")]] ∧
    fetchAll fetchC1 "page1" ≠ Except.ok (specFollowPages fetchC1 3 "page1") := by
  refine ⟨rfl, rfl, ?_⟩
  intro h
  cases h

/-- C2: the claim says every CompoundRecord yields at least one OutputRow,
with one empty-pathway row when zero pathways resolve. When stage 1
returns an empty mapping, and likewise when every stage-2 lookup fails,
the code's join loop body never runs and no fallback row is written: the
compound is silently dropped (zero rows). -/
theorem c2_empty_mapping_drops_compound :
    processRecord elC2 kgC2 fnsC3 [("keggId", "C00031")] = Except.ok [] ∧
    processRecord (fun _ => Except.ok [("cpd:C00031", ["map00010"])]) kgC2 fnsC3
      [("keggId", "C00031")] = Except.ok [] := ⟨rfl, rfl⟩

/-- C4: the claim says the five-line scenario parses to the two `C00031`
triples. In the code an `ENTRY` line does not clear the pathway-block
flag, so the final record terminator is consumed by the continuation
branch and fails its two-field assertion: the parser aborts instead of
producing triples. -/
theorem c4_scenario_parse_crashes :
    runParser ["ENTRY C00031", "PATHWAY map00010 Glycolysis", "  map00020 TCA cycle",
      "ENTRY C00002", "///"] = Except.error "AssertionError" := by rfl

/-- C5: the claim says a `///` line succeeds and clears both state
components regardless of parser state. It does so in the idle and
in-compound states, but inside an active pathway block the `///` line is
reached by the continuation branch first and fails the two-field
assertion. -/
theorem c5_terminator_in_pathway_block_errors :
    step ⟨ "C00031", true, [("C00031", [("map00010", "Glycolysis")])] ⟩ "///" =
      Except.error "AssertionError" ∧
    step ⟨ "C00031", false, [("C00031", [("map00010", "Glycolysis")])] ⟩ "///" =
      Except.ok ⟨ "", false, [("C00031", [("map00010", "Glycolysis")])] ⟩ ∧
    step ⟨ "", false, [] ⟩ "///" = Except.ok ⟨ "", false, [] ⟩ := ⟨rfl, rfl, rfl⟩

/-- C6 counterexample: in a state with an active pathway block, an `ENTRY`
line replaces the current compound but leaves the pathway-block flag set,
so the parser does not move out of the pathway block as the claim states. -/
theorem c6_entry_keeps_pathway_flag_cx :
    step ⟨ "C00031", true, [] ⟩ "ENTRY C00002" = Except.ok ⟨ "C00002", true, [] ⟩ := by rfl

/-- C6 amended: an `ENTRY` line carrying a compound identifier makes the
captured identifier the current compound, replacing any previous one, and
changes nothing else: the pathway-block flag and the accumulated table are
left as they were. -/
theorem c6_entry_sets_compound_only (st : PState) (line : String) (cid : String)
    (h : parseEntry line = some cid) :
    step st line = .ok { st with cur := cid } := by
  unfold step
  simp only [h]

/-- C6 witness. -/
theorem c6_entry_witness :
    step ⟨ "", false, [] ⟩ "ENTRY C00123" = Except.ok ⟨ "C00123", false, [] ⟩ :=
  c6_entry_sets_compound_only ⟨ "", false, [] ⟩ "ENTRY C00123" "C00123" (by rfl)

/-- C3 counterexample: when the resolver yields the same pathway id twice
for one compound and its name resolves, two identical rows are written —
the Pathway_ID column of the emitted rows is not duplicate-free, refuting
the claim that only the first occurrence produces a row. -/
theorem c3_duplicate_pathway_rows_cx :
    colValues 2 (processRecord elC3 kgC3 fnsC3 [("keggId", "C00031")]) =
      ["map00010", "map00010"] ∧
    ¬ (colValues 2 (processRecord elC3 kgC3 fnsC3 [("keggId", "C00031")])).Nodup := by
  constructor
  · rfl
  · decide

/-- C3 amended: the engine performs no deduplication. For every compound
whose stage-1 call succeeds, the emitted rows are exactly one row per
resolver-yielded pathway-id occurrence whose stage-2 lookup carries a
name, in iteration order; in particular a pathway id yielded `n` times
with a resolvable name contributes at least `n` copies of its row. -/
theorem c3_rows_follow_resolver_occurrences
    (el : String → Except String (List (String × List String)))
    (kg : String → KeggInfo) (fns : List String) (result : Record) (kid0 : String)
    (es : List (String × List String))
    (h1 : dget result "keggId" "" = kid0) (h2 : kid0 ≠ "")
    (hel : el (normalizeId kid0) = .ok es)
    (hidx : ∀ p ∈ flatIds es, nameEmptyErr kg p = false)
    (hkeys : ∀ k ∈ dkeys (setThree result "" "" ""), k ∈ fns) :
    processRecord el kg fns result =
      .ok ((namedIds kg (flatIds es)).map (rowFor kg fns (normalizeId kid0) result)) ∧
    ∀ p, hasName kg p = true →
      (flatIds es).count p ≤
        ((namedIds kg (flatIds es)).map (rowFor kg fns (normalizeId kid0) result)).count
          (rowFor kg fns (normalizeId kid0) result p) := by
  refine ⟨processRecord_spec el kg fns result kid0 es h1 h2 hel hidx hkeys, ?_⟩
  intro p hp
  have hc : (namedIds kg (flatIds es)).count p = (flatIds es).count p :=
    count_filter_of_pos (hasName kg) p hp (flatIds es)
  rw [← hc]
  exact count_map_ge (rowFor kg fns (normalizeId kid0) result) p (namedIds kg (flatIds es))

/-- C3 witness: the amended theorem evaluated on the duplicate-yielding
resolver: both occurrences of `map00010` are emitted. -/
theorem c3_amended_witness :
    processRecord elC3 kgC3 fnsC3 [("keggId", "C00031")] =
      Except.ok ((namedIds kgC3 (flatIds [("cpd:C00031", ["map00010", "map00010"])])).map
        (rowFor kgC3 fnsC3 (normalizeId "C00031") [("keggId", "C00031")])) :=
  (c3_rows_follow_resolver_occurrences elC3 kgC3 fnsC3 [("keggId", "C00031")] "C00031"
    [("cpd:C00031", ["map00010", "map00010"])] rfl (by decide) (by rfl) (by decide)
    (by decide)).1

/-- C7 counterexample: a malformed stage-2 response of shape `{NAME: []}`
for `map00020` is fatal to the whole run — `info["NAME"][0]` raises an
uncaught `IndexError` — even though `map00010` resolved, refuting the
claim that a malformed stage-2 response is never fatal. -/
theorem c7_malformed_name_fatal_cx :
    processRecord elW7 kgC7 fnsC3 [("keggId", "C00031")] =
      Except.error "IndexError: list index out of range" := by rfl

/-- C7 amended: a failed stage-2 lookup of the shapes the code's guard
catches — a malformed non-dict result or a dict without a NAME field —
is not fatal for one pathway id: the record still processes to a success,
that pathway id produces no row, and every other pathway id whose lookup
carries a name still has its row among the emitted rows. (A malformed
dict whose NAME field is an empty list instead aborts the run, per the
counterexample; the `hidx` hypothesis excludes that fatal shape.) -/
theorem c7_stage2_failure_skipped
    (el : String → Except String (List (String × List String)))
    (kg : String → KeggInfo) (fns : List String) (result : Record) (kid0 : String)
    (es : List (String × List String)) (pid : String)
    (h1 : dget result "keggId" "" = kid0) (h2 : kid0 ≠ "")
    (hel : el (normalizeId kid0) = .ok es)
    (hidx : ∀ p ∈ flatIds es, nameEmptyErr kg p = false)
    (hkeys : ∀ k ∈ dkeys (setThree result "" "" ""), k ∈ fns)
    (_hpid : pid ∈ flatIds es) (hfail : hasName kg pid = false) :
    processRecord el kg fns result =
      .ok ((namedIds kg (flatIds es)).map (rowFor kg fns (normalizeId kid0) result)) ∧
    pid ∉ namedIds kg (flatIds es) ∧
    ∀ q ∈ flatIds es, hasName kg q = true →
      rowFor kg fns (normalizeId kid0) result q ∈
        (namedIds kg (flatIds es)).map (rowFor kg fns (normalizeId kid0) result) := by
  refine ⟨processRecord_spec el kg fns result kid0 es h1 h2 hel hidx hkeys, ?_, ?_⟩
  · intro hmem
    have hmem2 : pid ∈ (flatIds es).filter (hasName kg) := hmem
    have := List.of_mem_filter hmem2
    rw [hfail] at this
    cases this
  · intro q hq hqn
    have hmem2 : q ∈ (flatIds es).filter (hasName kg) := List.mem_filter.mpr ⟨hq, hqn⟩
    exact List.mem_map_of_mem _ hmem2

/-- C7 witness: stage 2 fails for `map00020` while `map00010` resolves;
the record still emits its `map00010` row and nothing for `map00020`. -/
theorem c7_witness :
    processRecord elW7 kgW7 fnsC3 [("keggId", "C00031")] =
      Except.ok ((namedIds kgW7 (flatIds [("cpd:C00031", ["map00010", "map00020"])])).map
        (rowFor kgW7 fnsC3 (normalizeId "C00031") [("keggId", "C00031")])) :=
  (c7_stage2_failure_skipped elW7 kgW7 fnsC3 [("keggId", "C00031")] "C00031"
    [("cpd:C00031", ["map00010", "map00020"])] "map00020" rfl (by decide) (by rfl)
    (by decide) (by decide) (by decide) (by decide)).1

/-- C8 counterexample: the second record is missing the `keggId` attribute
the first record has, yet the run does not abort — the row is written with
the rest value in the missing column. This refutes the claim that a
record with missing attributes relative to the first is fatal. -/
theorem c8_missing_attrs_no_abort_cx :
    runMain fetchC8 (fun _ => Except.error "e") (fun _ => KeggInfo.nonDict) "u" =
      Except.ok (["name", "keggId", "Compound_ID", "Pathway_ID", "Pathway_Name"],
        [["glucose", "", "", "", ""], ["x", "", "", "", ""]]) := by rfl

/-- The sink refuses any dict carrying a key outside the field names. -/
theorem writerow_error_of_extra (fns : List String) (d : Record)
    (hbad : ∃ k ∈ dkeys d, k ∉ fns) :
    writerow fns d = .error "ValueError: dict contains fields not in fieldnames" := by
  obtain ⟨k, hk, hnk⟩ := hbad
  unfold writerow
  rw [if_neg (fun hall => hnk (hall k hk))]

/-- With an attribute outside the field names, the inner join loop never
returns successfully with a written row: every attempted write fails the
sink's check, so a success carries no rows and an unmutated record. -/
theorem emitLoop_extra_no_rows (kg : String → KeggInfo) (fns : List String) (kid : String)
    (r : Record) (hbad : ∃ k ∈ dkeys (setThree r "" "" ""), k ∉ fns) :
    ∀ (ids : List String) (rf : Record) (rows : List (List String)),
      emitLoop kg fns kid r ids = .ok (rf, rows) → rows = [] ∧ rf = r := by
  intro ids
  induction ids with
  | nil =>
    intro rf rows h
    simp only [emitLoop] at h
    injection h with h1
    injection h1 with ha hb
    exact ⟨hb.symm, ha.symm⟩
  | cons pid rest ih =>
    intro rf rows h
    cases hkg : kg pid with
    | nonDict =>
      simp only [emitLoop, hkg] at h
      exact ih rf rows h
    | ofDict m =>
      cases hfind : kfind m "NAME" with
      | none =>
        simp only [emitLoop, hkg, hfind] at h
        exact ih rf rows h
      | some ns =>
        cases ns with
        | nil =>
          simp only [emitLoop, hkg, hfind] at h
          exact Except.noConfusion h
        | cons n ns2 =>
          obtain ⟨k, hk, hnk⟩ := hbad
          have hk2 : k ∈ dkeys (setThree r kid pid n) :=
            (dkeys_setThree_val_indep r kid pid n).symm ▸ hk
          have hwr : writerow fns (setThree r kid pid n) =
              .error "ValueError: dict contains fields not in fieldnames" :=
            writerow_error_of_extra fns (setThree r kid pid n) ⟨k, hk2, hnk⟩
          simp only [emitLoop, hkg, hfind, hwr] at h
          exact Except.noConfusion h

/-- The outer join loop under an extra attribute: a success writes no
rows and leaves the record unmutated. -/
theorem processEntries_extra_no_rows (kg : String → KeggInfo) (fns : List String)
    (kid : String) (r : Record) (hbad : ∃ k ∈ dkeys (setThree r "" "" ""), k ∉ fns) :
    ∀ (es : List (String × List String)) (rf : Record) (rows : List (List String)),
      processEntries kg fns kid r es = .ok (rf, rows) → rows = [] ∧ rf = r := by
  intro es
  induction es with
  | nil =>
    intro rf rows h
    simp only [processEntries] at h
    injection h with h1
    injection h1 with ha hb
    exact ⟨hb.symm, ha.symm⟩
  | cons e rest ih =>
    intro rf rows h
    cases hv : emitLoop kg fns kid r e.2 with
    | error er =>
      simp only [processEntries, hv] at h
      exact Except.noConfusion h
    | ok p =>
      obtain ⟨r1, rows1⟩ := p
      obtain ⟨hrows1, hr1⟩ := emitLoop_extra_no_rows kg fns kid r hbad e.2 r1 rows1 hv
      rw [hrows1, hr1] at hv
      simp only [processEntries, hv] at h
      cases hv2 : processEntries kg fns kid r rest with
      | error er =>
        simp only [hv2] at h
        exact Except.noConfusion h
      | ok p2 =>
        obtain ⟨r2, rows2⟩ := p2
        obtain ⟨hrows2, hr2⟩ := ih r2 rows2 hv2
        simp only [hv2] at h
        injection h with h1
        injection h1 with ha hb
        constructor
        · rw [← hb]
          simp [hrows2]
        · rw [← ha, hr2]

/-- C8 amended: the sink's column set is computed exactly once, from the
first record's attribute keys plus the three fixed pathway columns (first
conjunct: any successful run's header is exactly that). A later record
carrying an attribute outside the column set never successfully emits a
row: every attempted row write fails the sink's `ValueError` check, so
any success for that record carries zero rows, and on the paths that
always write (an empty chemical id — and likewise a stage-1 failure or a
resolved pathway) the run aborts; only the zero-resolved-pathways drop
path avoids the abort, by writing nothing (second conjunct). A record
merely missing attributes does not abort: its row is written with the
empty rest value in the missing columns (third conjunct, stated for a
single-page two-record catalog with empty chemical ids). -/
theorem c8_header_once_extra_no_rows_missing_filled :
    (∀ (fetch : String → Page) (el : String → Except String (List (String × List String)))
      (kg : String → KeggInfo) (url : String) (r0 : Record) (rs : List Record) (nx : String)
      (hdr : List String) (rows : List (List String)),
      url ≠ "" → fetch url = ⟨ 200, r0 :: rs, nx ⟩ →
      runMain fetch el kg url = .ok (hdr, rows) →
      hdr = dkeys r0 ++ ["Compound_ID", "Pathway_ID", "Pathway_Name"]) ∧
    (∀ (el : String → Except String (List (String × List String)))
      (kg : String → KeggInfo) (fns : List String) (r : Record),
      (∃ k ∈ dkeys (setThree r "" "" ""), k ∉ fns) →
      (∀ rows, processRecord el kg fns r = .ok rows → rows = []) ∧
      (dget r "keggId" "" = "" →
        processRecord el kg fns r =
          .error "ValueError: dict contains fields not in fieldnames")) ∧
    (∀ (fetch : String → Page) (el : String → Except String (List (String × List String)))
      (kg : String → KeggInfo) (url : String) (r0 r : Record) (nx : String),
      url ≠ "" → fetch url = ⟨ 200, [r0, r], nx ⟩ →
      dget r0 "keggId" "" = "" → dget r "keggId" "" = "" →
      (∀ k ∈ dkeys (setThree r "" "" ""),
        k ∈ dkeys r0 ++ ["Compound_ID", "Pathway_ID", "Pathway_Name"]) →
      runMain fetch el kg url =
        .ok (dkeys r0 ++ ["Compound_ID", "Pathway_ID", "Pathway_Name"],
          [(dkeys r0 ++ ["Compound_ID", "Pathway_ID", "Pathway_Name"]).map
            (fun f => dget (setThree r0 "" "" "") f ""),
           (dkeys r0 ++ ["Compound_ID", "Pathway_ID", "Pathway_Name"]).map
            (fun f => dget (setThree r "" "" "") f "")])) := by
  refine ⟨?_, ?_, ?_⟩
  · intro fetch el kg url r0 rs nx hdr rows hurl hfetch h
    have hfa : fetchAll fetch url = .ok (r0 :: rs) := by
      unfold fetchAll
      rw [if_neg hurl, hfetch]
      simp
    unfold runMain at h
    simp only [hfa] at h
    cases hpa : processAll el kg (dkeys r0 ++ ["Compound_ID", "Pathway_ID", "Pathway_Name"])
        (r0 :: rs) with
    | error er =>
      simp only [hpa] at h
      exact Except.noConfusion h
    | ok rows2 =>
      simp only [hpa] at h
      injection h with h1
      injection h1 with ha hb
      exact ha.symm
  · intro el kg fns r hbad
    constructor
    · intro rows h
      unfold processRecord at h
      by_cases hkid : dget r "keggId" "" = ""
      · rw [hkid, if_pos rfl] at h
        rw [writerow_error_of_extra fns (setThree r "" "" "") hbad] at h
        exact Except.noConfusion h
      · rw [if_neg hkid] at h
        cases hel : el (normalizeId (dget r "keggId" "")) with
        | error er =>
          simp only [hel] at h
          rw [writerow_error_of_extra fns (setThree r "" "" "") hbad] at h
          exact Except.noConfusion h
        | ok es =>
          simp only [hel] at h
          cases hpe : processEntries kg fns (normalizeId (dget r "keggId" ""))
              (setThree r "" "" "") es with
          | error er =>
            simp only [hpe] at h
            exact Except.noConfusion h
          | ok p =>
            obtain ⟨rf2, rows2⟩ := p
            have hbad2 : ∃ k ∈ dkeys (setThree (setThree r "" "" "") "" "" ""), k ∉ fns := by
              rw [setThree_setThree]
              exact hbad
            obtain ⟨hrows2, _⟩ := processEntries_extra_no_rows kg fns
              (normalizeId (dget r "keggId" "")) (setThree r "" "" "") hbad2 es rf2 rows2 hpe
            simp only [hpe] at h
            injection h with h1
            rw [← h1]
            exact hrows2
    · intro hkid
      unfold processRecord
      rw [hkid, if_pos rfl]
      rw [writerow_error_of_extra fns (setThree r "" "" "") hbad]
  · intro fetch el kg url r0 r nx hurl hfetch h0 h1 hin
    have hfa : fetchAll fetch url = .ok [r0, r] := by
      unfold fetchAll
      rw [if_neg hurl, hfetch]
      simp
    have hkeys0 : ∀ k ∈ dkeys (setThree r0 "" "" ""),
        k ∈ dkeys r0 ++ ["Compound_ID", "Pathway_ID", "Pathway_Name"] := by
      intro k hk
      rcases mem_dkeys_setThree.mp hk with hmem | h | h | h
      · exact List.mem_append_left _ hmem
      · rw [h]
        exact List.mem_append_right _ (by simp)
      · rw [h]
        exact List.mem_append_right _ (by simp)
      · rw [h]
        exact List.mem_append_right _ (by simp)
    have hw0 : processRecord el kg (dkeys r0 ++ ["Compound_ID", "Pathway_ID", "Pathway_Name"]) r0 =
        .ok [(dkeys r0 ++ ["Compound_ID", "Pathway_ID", "Pathway_Name"]).map
          (fun f => dget (setThree r0 "" "" "") f "")] := by
      have hwr : writerow (dkeys r0 ++ ["Compound_ID", "Pathway_ID", "Pathway_Name"])
          (setThree r0 "" "" "") = .ok ((dkeys r0 ++ ["Compound_ID", "Pathway_ID", "Pathway_Name"]).map
            (fun f => dget (setThree r0 "" "" "") f "")) := by
        unfold writerow
        rw [if_pos hkeys0]
      unfold processRecord
      rw [h0, if_pos rfl]
      simp only [hwr]
    have hw1 : processRecord el kg (dkeys r0 ++ ["Compound_ID", "Pathway_ID", "Pathway_Name"]) r =
        .ok [(dkeys r0 ++ ["Compound_ID", "Pathway_ID", "Pathway_Name"]).map
          (fun f => dget (setThree r "" "" "") f "")] := by
      have hwr : writerow (dkeys r0 ++ ["Compound_ID", "Pathway_ID", "Pathway_Name"])
          (setThree r "" "" "") = .ok ((dkeys r0 ++ ["Compound_ID", "Pathway_ID", "Pathway_Name"]).map
            (fun f => dget (setThree r "" "" "") f "")) := by
        unfold writerow
        rw [if_pos hin]
      unfold processRecord
      rw [h1, if_pos rfl]
      simp only [hwr]
    unfold runMain
    simp only [hfa]
    simp only [processAll, hw0, hw1]
    simp

/-- C8 witness: a record with an extra attribute `zzz` and an empty
chemical id aborts with the sink's `ValueError` when its row is written. -/
theorem c8_witness :
    processRecord (fun _ => Except.error "e") (fun _ => KeggInfo.nonDict) fnsC3
      [("keggId", ""), ("zzz", "1")] =
      Except.error "ValueError: dict contains fields not in fieldnames" :=
  ((c8_header_once_extra_no_rows_missing_filled).2.1 (fun _ => Except.error "e")
    (fun _ => KeggInfo.nonDict) fnsC3 [("keggId", ""), ("zzz", "1")]
    ⟨ "zzz", by decide, by decide ⟩).2 rfl

/-- C9: a record whose chemical id is empty (or absent) short-circuits:
the result does not depend on either external lookup, and exactly one row
is written, the record with its three pathway columns set to the empty
string. A record whose non-empty id lacks the `cpd:` prefix has the
prefix prepended before the stage-1 call: the outcome depends on the
stage-1 oracle only through its value at the prefixed identifier. -/
theorem c9_empty_id_short_circuit_and_normalize (fns : List String) :
    (∀ (result : Record) (el el2 : String → Except String (List (String × List String)))
      (kg kg2 : String → KeggInfo),
      dget result "keggId" "" = "" →
      (∀ k ∈ dkeys (setThree result "" "" ""), k ∈ fns) →
      processRecord el kg fns result =
          .ok [fns.map (fun f => dget (setThree result "" "" "") f "")] ∧
        processRecord el kg fns result = processRecord el2 kg2 fns result ∧
        dget (setThree result "" "" "") "Compound_ID" "" = "" ∧
        dget (setThree result "" "" "") "Pathway_ID" "" = "" ∧
        dget (setThree result "" "" "") "Pathway_Name" "" = "") ∧
    (∀ (result : Record) (el el2 : String → Except String (List (String × List String)))
      (kg : String → KeggInfo) (kid0 : String),
      dget result "keggId" "" = kid0 → kid0 ≠ "" → pyStartsWith "cpd:" kid0 = false →
      el ("cpd:" ++ kid0) = el2 ("cpd:" ++ kid0) →
      processRecord el kg fns result = processRecord el2 kg fns result) := by
  constructor
  · intro result el el2 kg kg2 h hk
    have hw : writerow fns (setThree result "" "" "") =
        .ok (fns.map (fun f => dget (setThree result "" "" "") f "")) := by
      unfold writerow
      rw [if_pos hk]
    have key : ∀ (ela : String → Except String (List (String × List String)))
        (kga : String → KeggInfo),
        processRecord ela kga fns result =
          .ok [fns.map (fun f => dget (setThree result "" "" "") f "")] := by
      intro ela kga
      unfold processRecord
      rw [h, if_pos rfl]
      simp only [hw]
    exact ⟨key el kg, by rw [key el kg, key el2 kg2],
      dget_setThree_compound result "" "" "" "",
      dget_setThree_pathwayId result "" "" "" "",
      dget_setThree_pathwayName result "" "" "" ""⟩
  · intro result el el2 kg kid0 h1 h2 h3 heq
    have hnorm : normalizeId kid0 = "cpd:" ++ kid0 := by
      unfold normalizeId
      rw [h3]
      rfl
    unfold processRecord
    rw [h1, if_neg h2, hnorm, heq, if_neg h2]

/-- C9 witness: instantiating the short-circuit branch at a concrete
record with an empty `keggId`. -/
theorem c9_witness :
    processRecord (fun _ => Except.error "e1") (fun _ => KeggInfo.nonDict) fnsC3
      [("keggId", "")] =
      Except.ok [fnsC3.map (fun f => dget (setThree [("keggId", "")] "" "" "") f "")] :=
  ((c9_empty_id_short_circuit_and_normalize fnsC3).1 [("keggId", "")]
    (fun _ => Except.error "e1") (fun _ => Except.ok []) (fun _ => KeggInfo.nonDict)
    (fun _ => KeggInfo.nonDict) rfl (by decide)).1

/-- C10: for a record whose non-empty id lacks the `cpd:` prefix and whose
stage-1 call succeeds, every emitted row carries the prefixed identifier
in its `Compound_ID` column, while the record's original `keggId`
attribute value appears unchanged in its own column. -/
theorem c10_prefixed_compound_id_in_rows
    (el : String → Except String (List (String × List String)))
    (kg : String → KeggInfo) (fns : List String) (result : Record) (kid0 : String)
    (es : List (String × List String))
    (h1 : dget result "keggId" "" = kid0) (h2 : kid0 ≠ "")
    (h3 : pyStartsWith "cpd:" kid0 = false)
    (hel : el ("cpd:" ++ kid0) = .ok es)
    (hidx : ∀ p ∈ flatIds es, nameEmptyErr kg p = false)
    (hkeys : ∀ k ∈ dkeys (setThree result "" "" ""), k ∈ fns) :
    processRecord el kg fns result =
      .ok ((namedIds kg (flatIds es)).map (rowFor kg fns ("cpd:" ++ kid0) result)) ∧
    ∀ pid ∈ namedIds kg (flatIds es), ∀ i, i < fns.length →
      (fns.getD i "" = "Compound_ID" →
        (rowFor kg fns ("cpd:" ++ kid0) result pid).getD i "" = "cpd:" ++ kid0) ∧
      (fns.getD i "" = "keggId" →
        (rowFor kg fns ("cpd:" ++ kid0) result pid).getD i "" = kid0) := by
  have hnorm : normalizeId kid0 = "cpd:" ++ kid0 := by
    unfold normalizeId
    rw [h3]
    rfl
  constructor
  · have hs := processRecord_spec el kg fns result kid0 es h1 h2 (by rw [hnorm]; exact hel)
      hidx hkeys
    rw [hnorm] at hs
    exact hs
  · intro pid _hpid i hi
    constructor
    · intro hf
      simp only [rowFor]
      rw [getD_map_lt (fun f => dget (setThree result ("cpd:" ++ kid0) pid (nameOf kg pid)) f "")
        "" "" fns i hi, hf, dget_setThree_compound]
    · intro hf
      simp only [rowFor]
      rw [getD_map_lt (fun f => dget (setThree result ("cpd:" ++ kid0) pid (nameOf kg pid)) f "")
        "" "" fns i hi, hf,
        dget_setThree_other _ _ _ _ _ _ (by decide) (by decide) (by decide), h1]

/-- C10 witness: one resolved pathway for raw id `C00031`; the row's
`Compound_ID` column (index 1 of the field names) holds `cpd:C00031`. -/
theorem c10_witness :
    (rowFor kgW10 fnsC3 ("cpd:" ++ "C00031") [("keggId", "C00031")] "map00010").getD 1 "" =
      "cpd:" ++ "C00031" :=
  ((c10_prefixed_compound_id_in_rows elW10 kgW10 fnsC3 [("keggId", "C00031")] "C00031"
    [("cpd:C00031", ["map00010"])] rfl (by decide) (by decide) (by rfl) (by decide)
    (by decide)).2 "map00010" (by decide) 1 (by decide)).1 (by rfl)

